import Mathlib

/-!
Verification of the GoPistolet SMTP server core (package `smtp`).

The development shallowly embeds the per-connection protocol engine:

* the data model (`MailAddress`, server `Config`, the role `Smtper`,
  the role-based connection state `conn` and the older authenticating
  connection state `Conn`);
* reply serialisation (`write`, `writeMultiLine`);
* the command-line splitter `parseLine` and the regex-based address
  extractors `parseFROM` / `parseTO`;
* the command handlers (`handleHELO`, `handleEHLO`, `handleRCPT`,
  `handleDATA`, `handleRSET`, the MSA handlers for MAIL / AUTH /
  STARTTLS, and the DATA and AUTH cases of the older `Conn.serve`);
* base64 encoding and decoding as used by AUTH LOGIN;
* the bounded line reader (`UntillReader.Read` composed through
  `ReadUntill`) and the line-too-long recovery of `MtaProtocol.GetCmd`
  with `SkipTillNewline`.

Byte streams are modelled as `List Char` (the source handles ASCII
octets), readers as functions consuming a prefix of the list and
returning the remainder.  Network sockets, TLS sessions and buffered
readers are modelled by the data that flows through them; the TLS
upgrade is represented by a boolean recording which stream the socket
and the buffered reader are bound to, and the handshake outcome is an
explicit parameter.
-/

/-- `MailAddress` from `smtp/mailaddress.go`: a parsed envelope address
with local part and domain. -/
structure MailAddress where
  Local : String
  Domain : String
deriving DecidableEq, Repr

/-- Server configuration (`Config` in `smtp/smtp.go`). -/
structure Config where
  Port : Int
  Hostname : String
  Key : String
  Cert : String
deriving DecidableEq, Repr

/-- The two implementations of the `smtper` role interface. -/
inductive Smtper where
  | mta
  | msa
deriving DecidableEq, Repr

/-- `Server` from `smtp/smtp.go`.  `tlsConfig` records whether a TLS
configuration was loaded (`srv.tlsConfig != nil` in the source). -/
structure Server where
  config : Config
  tls : Bool
  tlsConfig : Bool
  smtper : Smtper
deriving DecidableEq, Repr

/-- The role-based per-connection state (`conn` in `smtp/smtp.go`).
The socket `c` and the buffered reader `br` are modelled by whether
they are bound to the TLS-upgraded stream (`c_tls`, `br_tls`); the
remaining fields mirror the source struct. -/
structure conn where
  c_tls : Bool
  br_tls : Bool
  from_ : Option MailAddress
  to_ : List MailAddress
  msg : String
  tls : Bool
  srv : Server
deriving DecidableEq, Repr

/-- The older authenticating connection state (`Conn` in the
pre-role version of `smtp/smtp.go`, the one whose `serve` loop handles
AUTH inline). -/
structure Conn where
  from_ : Option MailAddress
  to_ : List MailAddress
  msg : String
  auth : Bool
deriving DecidableEq, Repr

/-- `conn.write`: one reply line on the wire,
`fmt.Fprintf(conn.c, "%d %s\r\n", code, str)`. -/
def write (code : Nat) (str : String) : String :=
  s!"{code} {str}\r\n"

/-- `conn.writeMultiLine`: all but the last line use the `code-text`
continuation form, the last uses `code text`. -/
def writeMultiLine (code : Nat) : List String → List String
  | [] => []
  | [str] => [write code str]
  | str :: rest => s!"{code}-{str}\r\n" :: writeMultiLine code rest

/-- `conn.reset`: clear the envelope (`from`, `to`, `msg`). -/
def reset (c : conn) : conn :=
  { c with from_ := none, to_ := [], msg := "" }

/-- `Conn.reset` of the older version: identical clearing. -/
def Conn_reset (c : Conn) : Conn :=
  { c with from_ := none, to_ := [], msg := "" }

/-- `strings.ToUpper` restricted to ASCII, as used on command verbs. -/
def strToUpper (s : String) : String :=
  ⟨s.data.map Char.toUpper⟩

/-- ASCII whitespace as recognised by Go `strings.TrimSpace`. -/
def isSpaceChar (c : Char) : Bool :=
  c = ' ' ∨ c = '\t' ∨ c = '\n' ∨ c = '\x0b' ∨ c = '\x0c' ∨ c = '\r'

/-- `strings.TrimSpace` on ASCII input. -/
def trimSpace (cs : List Char) : List Char :=
  ((cs.dropWhile isSpaceChar).reverse.dropWhile isSpaceChar).reverse

/-- `strings.Split(s, " ")`: the fields between each space; an empty
input yields one empty field, as in Go. -/
def splitOnSpace : List Char → List String
  | [] => [""]
  | c :: cs =>
    match splitOnSpace cs with
    | [] => [⟨[c]⟩]
    | s :: rest =>
      if c = ' ' then "" :: s :: rest else ⟨c :: s.data⟩ :: rest

/-- `parseLine` from `smtp/smtp.go` (role-based version): split the
line at the first space into an uppercased verb and the
space-separated argument tokens of the trimmed remainder. -/
def parseLine (line : String) : String × List String :=
  match line.data.findIdx? (· = ' ') with
  | none => (strToUpper ⟨trimSpace line.data⟩, [])
  | some i =>
    (strToUpper ⟨line.data.take i⟩,
     splitOnSpace (trimSpace (line.data.drop (i + 1))))

/-- The typed command values of `smtp/protocol.go`
(`HeloCmd` … `SamlCmd`). -/
inductive Cmd where
  | helo (Domain : String)
  | ehlo (Domain : String)
  | quit
  | mail (From : Option MailAddress)
  | rcpt (To : Option MailAddress)
  | data
  | rset
  | noop
  | vrfy (Param : String)
  | expn (ListName : String)
  | send
  | soml
  | saml
deriving DecidableEq, Repr

/-- The `String()` serialisations of the command values in
`smtp/protocol.go`: every one of `HeloCmd.String` … `SamlCmd.String`
returns the empty string. -/
def cmdString : Cmd → String
  | .helo _ => ""
  | .ehlo _ => ""
  | .quit => ""
  | .mail _ => ""
  | .rcpt _ => ""
  | .data => ""
  | .rset => ""
  | .noop => ""
  | .vrfy _ => ""
  | .expn _ => ""
  | .send => ""
  | .soml => ""
  | .saml => ""

example : parseLine "MAIL FROM: <example@example.com>" =
    ("MAIL", ["FROM:", "<example@example.com>"]) := by decide

example : parseLine "noop\r\n" = ("NOOP", []) := by decide

example : parseLine "" = ("", []) := by decide

/-- Index of the first newline in a stream, if any. -/
def firstNl : List Char → Option Nat
  | [] => none
  | c :: cs => if c = '\n' then some 0 else (firstNl cs).map (· + 1)

/-- `bufio.Reader.ReadString('\n')`: the bytes up to and including the
first newline together with the unread remainder; when the stream ends
first, everything that was read (the `data` returned alongside the
`io.EOF` that the callers ignore). -/
def readStringNl (input : List Char) : String × List Char :=
  match firstNl input with
  | some i => (⟨input.take (i + 1)⟩, input.drop (i + 1))
  | none => (⟨input⟩, [])

theorem readStringNl_snd_length_lt (c : Char) (cs : List Char) :
    (readStringNl (c :: cs)).2.length < (c :: cs).length := by
  unfold readStringNl
  cases h : firstNl (c :: cs) with
  | none => simp
  | some i =>
    simp only [List.length_drop, List.length_cons]
    omega

/-- The DATA body loop of `conn.handleDATA` (and, identically, of the
DATA cases of the two `serve` loops), with an explicit fuel parameter
for structural termination (one unit per consumed byte suffices): read
lines with `ReadString`, stop at one of the tolerated terminators
`".\r\n"`, `".\r"`, `".\n"` without including it, otherwise append the
raw line bytes to `msg`.  The source ignores read errors and would
spin on a drained stream; the model stops there instead, which is
reachable only for unterminated bodies. -/
def dataLoopF : Nat → String → List Char → String × List Char
  | 0, msg, input => (msg, input)
  | _ + 1, msg, [] => (msg, [])
  | fuel + 1, msg, c :: cs =>
    let data := (readStringNl (c :: cs)).1
    if data = ".\r\n" ∨ data = ".\r" ∨ data = ".\n" then
      (msg, (readStringNl (c :: cs)).2)
    else
      dataLoopF fuel (msg ++ data) (readStringNl (c :: cs)).2

/-- The DATA body loop entry point: enough fuel for the whole stream. -/
def dataLoop (msg : String) (input : List Char) : String × List Char :=
  dataLoopF (input.length + 1) msg input

/-- Definition following the spec's words (§4.2, §8), used only for
comparison with `dataLoop`: the decoded body equals the transmitted
lines up to (and excluding) the terminating dot line, with the leading
`.` octet removed from every line whose first octet is `.`. -/
def specDotDecodedBodyF : Nat → List Char → String
  | 0, _ => ""
  | _ + 1, [] => ""
  | fuel + 1, c :: cs =>
    let data := (readStringNl (c :: cs)).1
    if data = ".\r\n" then ""
    else
      (if data.data.head? = some '.' then (⟨data.data.tail⟩ : String) else data)
        ++ specDotDecodedBodyF fuel (readStringNl (c :: cs)).2

/-- Entry point of the spec-side decoder. -/
def specDotDecodedBody (input : List Char) : String :=
  specDotDecodedBodyF (input.length + 1) input

example : dataLoop "" "Hello\r\n.\r\n".data = ("Hello\r\n", []) := by decide

example : specDotDecodedBody "..foo\r\n.bar\r\n.\r\n".data = ".foo\r\nbar\r\n" := by decide

/-- The standard base64 alphabet of Go `encoding/base64.StdEncoding`. -/
def b64Alphabet : List Char :=
  "ABCDEFGHIJKLMNOPQRSTUVWXYZabcdefghijklmnopqrstuvwxyz0123456789+/".data

/-- The alphabet character for a 6-bit value. -/
def b64Chr (i : Nat) : Char := b64Alphabet.getD i 'A'

/-- The 6-bit value of an alphabet character, if it is one. -/
def b64Index (c : Char) : Option Nat :=
  b64Alphabet.findIdx? (· = c)

/-- `base64.StdEncoding.EncodeToString` on a byte list: 3-byte groups
become 4 alphabet characters, with `=` padding for a short final
group. -/
def base64EncodeBytes : List Nat → List Char
  | [] => []
  | [b1] => [b64Chr (b1 / 4), b64Chr (b1 % 4 * 16), '=', '=']
  | [b1, b2] => [b64Chr (b1 / 4), b64Chr (b1 % 4 * 16 + b2 / 16), b64Chr (b2 % 16 * 4), '=']
  | b1 :: b2 :: b3 :: rest =>
    b64Chr (b1 / 4) :: b64Chr (b1 % 4 * 16 + b2 / 16) ::
      b64Chr (b2 % 16 * 4 + b3 / 64) :: b64Chr (b3 % 64) :: base64EncodeBytes rest

/-- `base64.StdEncoding.EncodeToString` on an ASCII string. -/
def base64Encode (s : String) : String :=
  ⟨base64EncodeBytes (s.data.map Char.toNat)⟩

/-- Decode a base64 stream four characters at a time, enforcing the
standard padding rules (`=` only at the end of the final quantum). -/
def base64DecodeQuantums : List Char → Option (List Nat)
  | [] => some []
  | c1 :: c2 :: c3 :: c4 :: rest =>
    match b64Index c1, b64Index c2 with
    | some i1, some i2 =>
      if c3 = '=' then
        if c4 = '=' ∧ rest = [] then some [i1 * 4 + i2 / 16] else none
      else
        match b64Index c3 with
        | some i3 =>
          if c4 = '=' then
            if rest = [] then some [i1 * 4 + i2 / 16, i2 % 16 * 16 + i3 / 4] else none
          else
            match b64Index c4 with
            | some i4 =>
              (base64DecodeQuantums rest).map
                (fun bs => (i1 * 4 + i2 / 16) :: (i2 % 16 * 16 + i3 / 4) :: (i3 % 4 * 64 + i4) :: bs)
            | none => none
        | none => none
    | _, _ => none
  | _ => none

/-- `base64.StdEncoding.DecodeString`: carriage returns and newlines
are ignored, anything else must form valid padded quantums. -/
def base64Decode (s : String) : Option String :=
  (base64DecodeQuantums (s.data.filter (fun c => ¬(c = '\r' ∨ c = '\n')))).map
    (fun bs => ⟨bs.map Char.ofNat⟩)

example : base64Encode "Username:" = "VXNlcm5hbWU6" := by decide

example : base64Encode "Password:" = "UGFzc3dvcmQ6" := by decide

example : base64Decode "YWxpY2U=\n" = some "alice" := by decide

example : base64Decode (base64Encode "wrongpassword" ++ "\n") = some "wrongpassword" := by decide

example : base64Decode "not base64!\n" = none := by decide

/-- The slice `t[a+1 : b]` of a character list. -/
def seg (t : List Char) (a b : Nat) : List Char :=
  (t.drop (a + 1)).take (b - (a + 1))

/-- Leftmost-first match of the regex tail `(.+)@(.+)>` against `t`
(Go `regexp` preferences): the first capture group greedily takes the
most it can, i.e. the split is at the last `@` after which a `>` still
follows with a non-empty second group; the second group then extends
to the last such `>`.  `.` does not match a newline. -/
def matchAddr (t : List Char) : Option (String × String) :=
  (List.range t.length).reverse.findSome? (fun a =>
    if t.getD a ' ' = '@' ∧ 1 ≤ a ∧ ∀ x ∈ t.take a, x ≠ '\n' then
      match (List.range t.length).reverse.find? (fun b =>
          decide (a + 2 ≤ b ∧ t.getD b ' ' = '>' ∧ ∀ x ∈ seg t a b, x ≠ '\n')) with
      | some b => some (⟨t.take a⟩, ⟨seg t a b⟩)
      | none => none
    else none)

/-- Match of `fromRegex` = `[Ff][Rr][Oo][Mm]:[\ ]?<(.+)@(.+)>`
anchored at the head of the list. -/
def matchFROMAt : List Char → Option (String × String)
  | f :: r :: o :: m :: ':' :: rest =>
    if (f = 'F' ∨ f = 'f') ∧ (r = 'R' ∨ r = 'r') ∧ (o = 'O' ∨ o = 'o') ∧
        (m = 'M' ∨ m = 'm') then
      match rest with
      | ' ' :: '<' :: t => matchAddr t
      | '<' :: t => matchAddr t
      | _ => none
    else none
  | _ => none

/-- `fromRegex.FindStringSubmatch`: the match at the leftmost possible
start position. -/
def findMatchFROM : List Char → Option (String × String)
  | [] => none
  | c :: cs =>
    match matchFROMAt (c :: cs) with
    | some r => some r
    | none => findMatchFROM cs

/-- `parseFROM` of the role-based `smtp/smtp.go`: requires at least
one argument token and applies `fromRegex` to the first one; the
source's error returns are modelled as `none`. -/
def parseFROM (args : List String) : Option MailAddress :=
  match args with
  | [] => none
  | a0 :: _ => (findMatchFROM a0.data).map (fun p => { Local := p.1, Domain := p.2 })

/-- Match of `toRegex` = `[Tt][Oo]:<(.+)@(.+)>.*` anchored at the head
of the list (the trailing `.*` constrains nothing). -/
def matchTOAt : List Char → Option (String × String)
  | t :: o :: ':' :: '<' :: rest =>
    if (t = 'T' ∨ t = 't') ∧ (o = 'O' ∨ o = 'o') then matchAddr rest else none
  | _ => none

/-- `toRegex.FindStringSubmatch`: leftmost match. -/
def findMatchTO : List Char → Option (String × String)
  | [] => none
  | c :: cs =>
    match matchTOAt (c :: cs) with
    | some r => some r
    | none => findMatchTO cs

/-- `parseTO` of the role-based `smtp/smtp.go`. -/
def parseTO (args : List String) : Option MailAddress :=
  match args with
  | [] => none
  | a0 :: _ => (findMatchTO a0.data).map (fun p => { Local := p.1, Domain := p.2 })

example : parseFROM ["FROM:<example.email@example.com>"] =
    some { Local := "example.email", Domain := "example.com" } := by decide

example : parseFROM ["FROM:"] = none := by decide

example : parseTO ["TO:<a@b.example>"] =
    some { Local := "a", Domain := "b.example" } := by decide

/-- `MTA.extensions`: the MTA role advertises nothing. -/
def MTA_extensions (_c : conn) : List String := []

/-- `MTA.authenticated`: constantly true. -/
def MTA_authenticated : Bool := true

/-- `MTA.validateFrom`: constantly true. -/
def MTA_validateFrom : Bool := true

/-- `MTA.handleMail`: the MTA implementation has an empty body. -/
def MTA_handleMail (st : conn) (_args : List String) : conn × List String :=
  (st, [])

/-- `MSA.extensions`: append `STARTTLS` when a TLS configuration is
loaded, and `AUTH LOGIN` when the connection is in TLS or no TLS
configuration is loaded. -/
def MSA_extensions (c : conn) : List String :=
  (if c.srv.tlsConfig then ["STARTTLS"] else []) ++
    (if c.tls ∨ c.srv.tlsConfig = false then ["AUTH LOGIN"] else [])

/-- `MSA.authenticated`: constantly true in the source. -/
def MSA_authenticated : Bool := true

/-- `MSA.validateFrom`: constantly true in the source. -/
def MSA_validateFrom : Bool := true

/-- `MSA.handleMail`: the silent drop when not authenticated, the
duplicate-sender check, the address parse, the (constant) sender
validation, and the acceptance.  Branches that log and `return`
without writing produce an empty reply list. -/
def MSA_handleMail (st : conn) (args : List String) : conn × List String :=
  if MSA_authenticated = false then (st, [])
  else if st.from_ ≠ none then (st, [write 503 "Sender already specified"])
  else
    match parseFROM args with
    | none => (st, [write 501 "Invalid syntax"])
    | some from2 =>
      if MSA_validateFrom = false then (st, [])
      else ({ st with from_ := some from2 }, [write 250 "OK"])

/-- Dispatch of `conn.srv.extensions(conn)` through the role. -/
def Server_extensions (c : conn) : List String :=
  match c.srv.smtper with
  | .mta => MTA_extensions c
  | .msa => MSA_extensions c

/-- Dispatch of `conn.srv.handleMail(conn, args)` through the role. -/
def Server_handleMail (c : conn) (args : List String) : conn × List String :=
  match c.srv.smtper with
  | .mta => MTA_handleMail c args
  | .msa => MSA_handleMail c args

/-- The extension handlers a role can claim for an unknown verb. -/
inductive SmtpExt where
  | auth
  | starttls
deriving DecidableEq, Repr

/-- `MTA.extension`: always nil. -/
def MTA_extension (_verb : String) : Option SmtpExt := none

/-- `MSA.extension`: AUTH and STARTTLS. -/
def MSA_extension (verb : String) : Option SmtpExt :=
  match verb with
  | "AUTH" => some .auth
  | "STARTTLS" => some .starttls
  | _ => none

/-- Dispatch of `conn.srv.extension(verb)` through the role. -/
def Server_extension (c : conn) (verb : String) : Option SmtpExt :=
  match c.srv.smtper with
  | .mta => MTA_extension verb
  | .msa => MSA_extension verb

/-- `conn.handleHELO`: reply 250 with the configured hostname (the
missing-argument case is only logged). -/
def handleHELO (st : conn) (_args : List String) : conn × List String :=
  (st, [write 250 st.srv.config.Hostname])

/-- `conn.handleEHLO`: reset the envelope, then answer a 250
multi-line with the hostname followed by the role's capabilities. -/
def handleEHLO (st : conn) (_args : List String) : conn × List String :=
  let st' := reset st
  (st', writeMultiLine 250 (st'.srv.config.Hostname :: Server_extensions st'))

/-- `conn.handleRCPT`: 503 before MAIL, 501 on an unparsable address,
otherwise append the recipient and reply 250. -/
def handleRCPT (st : conn) (args : List String) : conn × List String :=
  if st.from_ = none then (st, [write 503 "Need MAIL before RCPT"])
  else
    match parseTO args with
    | none => (st, [write 501 "Invalid syntax"])
    | some rcpt => ({ st with to_ := st.to_ ++ [rcpt] }, [write 250 "OK"])

/-- `conn.handleDATA` of the role-based version: 503 when `from` is
unset, 503 when `to` is empty, otherwise 354, the body loop, a reset
and 250.  The result also carries the unread remainder of the
stream. -/
def handleDATA (st : conn) (input : List Char) : conn × List String × List Char :=
  if st.from_ = none then (st, [write 503 "Need MAIL before DATA"], input)
  else if st.to_.length < 1 then (st, [write 503 "Need RCPT before DATA"], input)
  else
    let r := dataLoop st.msg input
    (reset { st with msg := r.1 },
     [write 354 "Accepting mail input", write 250 "OK"], r.2)

/-- `conn.handleRSET`: reset and 250. -/
def handleRSET (st : conn) (_args : List String) : conn × List String :=
  (reset st, [write 250 "OK"])

/-- `conn.handleNOOP`. -/
def handleNOOP (st : conn) (_args : List String) : conn × List String :=
  (st, [write 250 "OK"])

/-- `conn.handleQUIT`: 221 and close. -/
def handleQUIT (st : conn) (_args : List String) : conn × List String :=
  (st, [write 221 "Bye!"])

/-- `MSA.handleAUTH`: refuse AUTH without TLS when TLS is configured,
validate the argument shape, then run the two 334 legs, decoding each
answer as base64; any decode failure replies 500.  After two
successful decodes the source replies 235 unconditionally (its 535
line is commented out) and never consults a user database; the
connection state is never modified. -/
def MSA_handleAUTH (st : conn) (args : List String) (input : List Char) :
    conn × List String × List Char :=
  if st.tls = false ∧ st.srv.tlsConfig = true then
    (st, [write 502 "Enable tls before sending AUTH"], input)
  else if args.length ≠ 1 then
    (st, [write 501 "Error parsing arguments"], input)
  else if strToUpper (args.headD "") ≠ "LOGIN" then
    (st, [write 504 "Not supported"], input)
  else
    let u := readStringNl input
    match base64Decode u.1 with
    | none =>
      (st, [write 334 (base64Encode "Username:"), write 500 "Not base64"], u.2)
    | some _username =>
      let p := readStringNl u.2
      match base64Decode p.1 with
      | none =>
        (st, [write 334 (base64Encode "Username:"), write 334 (base64Encode "Password:"),
              write 500 "Not base64"], p.2)
      | some _password =>
        (st, [write 334 (base64Encode "Username:"), write 334 (base64Encode "Password:"),
              write 235 "OK"], p.2)

/-- `MSA.handleSTARTTLS`: 502 when already in TLS or when no TLS
configuration is loaded; otherwise 220 "Go ahead" and the handshake.
On failure the source writes 550 and returns — it does not close the
connection.  On success the socket is replaced by the TLS stream, the
buffered reader is re-bound to it, `tls` is set and the envelope is
reset.  The final component records whether the handler closed the
connection (it never does). -/
def MSA_handleSTARTTLS (st : conn) (handshakeOk : Bool) : conn × List String × Bool :=
  if st.tls then (st, [write 502 "Already in tls"], false)
  else if st.srv.tlsConfig = false then (st, [write 502 "TLS not supported"], false)
  else if handshakeOk = false then
    (st, [write 220 "Go ahead", write 550 "Handshake error"], false)
  else
    (reset { st with c_tls := true, br_tls := true, tls := true },
     [write 220 "Go ahead"], false)

/-- The DATA case of the older `Conn.serve` loop: 503 (and `break`)
when `from` is unset; 503 — without a `break` — when `to` is empty;
then 354, the body loop, a reset and 250. -/
def Conn_DATA_step (st : Conn) (input : List Char) : Conn × List String × List Char :=
  if st.from_ = none then (st, [write 503 "Need MAIL before DATA"], input)
  else
    let pre : List String :=
      if st.to_.length < 1 then [write 503 "Need RCPT before DATA"] else []
    let r := dataLoop st.msg input
    (Conn_reset { st with msg := r.1 },
     pre ++ [write 354 "Accepting mail input", write 250 "OK"], r.2)

/-- The AUTH case of the older `Conn.serve` loop: argument checks
(whose failure paths `return nil`, closing the session), the two 334
legs with base64 decoding (decode failures reply 500 and close), and
then — with the 235 line commented out — `conn.auth = true` followed
by a 535 "Authentication failed" reply.  The final component records
whether the case left the serve loop. -/
def Conn_AUTH_step (st : Conn) (args : List String) (input : List Char) :
    Conn × List String × List Char × Bool :=
  if args.length ≠ 1 then
    (st, [write 501 "Error parsing arguments"], input, true)
  else if strToUpper (args.headD "") ≠ "LOGIN" then
    (st, [write 504 "Not supported"], input, true)
  else
    let u := readStringNl input
    match base64Decode u.1 with
    | none =>
      (st, [write 334 (base64Encode "Username:"), write 500 "Not base64"], u.2, true)
    | some _username =>
      let p := readStringNl u.2
      match base64Decode p.1 with
      | none =>
        (st, [write 334 (base64Encode "Username:"), write 334 (base64Encode "Password:"),
              write 500 "Not base64"], p.2, true)
      | some _password =>
        ({ st with auth := true },
         [write 334 (base64Encode "Username:"), write 334 (base64Encode "Password:"),
          write 535 "Authentication failed"], p.2, false)

/-- The two reader errors of `smtp/protocol.go`: `ErrLtl` ("Line too
long") and `ErrNoDelims` ("Delimiters not found"). -/
inductive ReadErr where
  | ltl
  | noDelims
deriving DecidableEq, Repr

/-- The byte loop of `UntillReader.Read` composed through
`ReadUntill`'s driver (the 64-byte chunking of `ReadUntill` carries
`delimsRead` and the remaining budget `N` across calls, so the
composition is this single byte-at-a-time recursion).  `d` is
`delimsRead`, `N` the remaining byte budget, `acc` the bytes returned
so far.  Completion of the delimiter is checked first (the loop breaks
as soon as `delimsRead == len(Delims)` and `Read` then reports the
`io.EOF` that makes `ReadUntill` succeed); an exhausted budget yields
`ErrLtl`; a drained underlying stream yields `ErrNoDelims`; any
non-matching byte resets the match progress to zero. -/
def untillRead (delims : List Char) : Nat → Nat → List Char → List Char →
    List Char × Option ReadErr
  | N, d, acc, input =>
    if d = delims.length then (acc, none)
    else
      match N, input with
      | 0, _ => (acc, some .ltl)
      | _ + 1, [] => (acc, some .noDelims)
      | N' + 1, b :: rest =>
        untillRead delims N' (if delims.getD d ' ' = b then d + 1 else 0)
          (acc ++ [b]) rest

/-- `ReadUntill delims maxBytes r`: the accumulated bytes together
with `nil` (success), `ErrLtl` or `ErrNoDelims`. -/
def ReadUntill (delims : List Char) (maxBytes : Nat) (input : List Char) :
    List Char × Option ReadErr :=
  untillRead delims maxBytes 0 [] input

/-- One step of the positional delimiter matcher: progress `d`
advances on the expected byte and resets to zero otherwise. -/
def delimStep (delims : List Char) (d : Nat) (b : Char) : Nat :=
  if delims.getD d ' ' = b then d + 1 else 0

/-- Specification-side scan: the number of bytes the matcher consumes
from `input`, starting at progress `d`, before the delimiter
completes; `none` when it never completes within `input`. -/
def delimScan (delims : List Char) (d : Nat) : List Char → Option Nat
  | [] => if d = delims.length then some 0 else none
  | b :: rest =>
    if d = delims.length then some 0
    else (delimScan delims (delimStep delims d b) rest).map (· + 1)

example : ReadUntill "\r\n".data 512 "NOOP\r\nRSET\r\n".data =
    ("NOOP\r\n".data, none) := by decide

example : ReadUntill "\r\n".data 4 "NOOP\r\n".data =
    ("NOOP".data, some .ltl) := by decide

example : ReadUntill "\r\n".data 512 "NOOP".data =
    ("NOOP".data, some .noDelims) := by decide

example : delimScan "\r\n".data 0 "NOOP\r\nX".data = some 6 := by decide

/-- The errors `MtaProtocol.GetCmd` can surface to its caller:
`ErrLtl` after a successful resynchronisation, or the end of the
stream (either during the parse or during `SkipTillNewline`). -/
inductive GetCmdErr where
  | ltl
  | eof
deriving DecidableEq, Repr

/-- `MtaProtocol.GetCmd` from `smtp/protocol.go`.  The source sets the
`io.LimitedReader` budget to 512 octets and calls
`parser.ParseCommand(p.br)`; `parser.ParseCommand` itself is not under
`src/`, so its reading behaviour is modelled from the spec (§4.1,
§4.3): it consumes one line, up to and including the first newline.
When the parse ends with `io.EOF` and an exhausted budget — no newline
within 512 octets — `GetCmd` discards input through the next newline
(`SkipTillNewline`, whose repeated 1024-octet ceilings make it
unbounded) and reports `ErrLtl`; if the stream ends instead, the
end-of-stream error is passed through.  `bufio` buffering is
abstracted to a per-call budget over the remaining stream.  The parsed
command is returned as the raw line (the session applies `parseLine`
to it). -/
def MtaProtocol_GetCmd (input : List Char) : Except GetCmdErr String × List Char :=
  match firstNl (input.take 512) with
  | some i => (.ok ⟨input.take (i + 1)⟩, input.drop (i + 1))
  | none =>
    match firstNl input with
    | some j => (.error .ltl, input.drop (j + 1))
    | none => (.error .eof, [])

/-- Modelled from the spec: the command-loop session that consumes
`MtaProtocol.GetCmd` is not under `src/` (only `GetCmd` and the
role-based handlers are).  Per §7 of the spec, a framing error
(`ErrLtl`) is recovered locally: the session emits 500 "Line too
long", keeps its state, and resumes reading at the next line; an
end-of-stream terminates the session.  A successfully read line is
dispatched exactly as in the role-based `conn.serve` switch, with the
in-`src/` handlers; DATA and AUTH consume further input from the
stream, and the STARTTLS handshake outcome is the parameter `hsOk`.
The result is the new state, the emitted reply lines, the unread
remainder of the stream, and whether the session ended. -/
def mta_sessionStep (hsOk : Bool) (st : conn) (input : List Char) :
    conn × List String × List Char × Bool :=
  match MtaProtocol_GetCmd input with
  | (.error .ltl, rest) => (st, [write 500 "Line too long"], rest, false)
  | (.error .eof, rest) => (st, [], rest, true)
  | (.ok line, rest) =>
    let pl := parseLine line
    if pl.1 = "HELO" then ((handleHELO st pl.2).1, (handleHELO st pl.2).2, rest, false)
    else if pl.1 = "EHLO" then ((handleEHLO st pl.2).1, (handleEHLO st pl.2).2, rest, false)
    else if pl.1 = "MAIL" then
      ((Server_handleMail st pl.2).1, (Server_handleMail st pl.2).2, rest, false)
    else if pl.1 = "RCPT" then ((handleRCPT st pl.2).1, (handleRCPT st pl.2).2, rest, false)
    else if pl.1 = "DATA" then
      ((handleDATA st rest).1, (handleDATA st rest).2.1, (handleDATA st rest).2.2, false)
    else if pl.1 = "RSET" then ((handleRSET st pl.2).1, (handleRSET st pl.2).2, rest, false)
    else if pl.1 = "VRFY" ∨ pl.1 = "EXPN" ∨ pl.1 = "SEND" ∨ pl.1 = "SOML" ∨ pl.1 = "SAML" then
      (st, [write 502 "Command not implemented"], rest, false)
    else if pl.1 = "NOOP" then ((handleNOOP st pl.2).1, (handleNOOP st pl.2).2, rest, false)
    else if pl.1 = "QUIT" then ((handleQUIT st pl.2).1, (handleQUIT st pl.2).2, rest, true)
    else
      match Server_extension st pl.1 with
      | none => (st, [write 500 "Command unrecognized"], rest, false)
      | some .auth =>
        ((MSA_handleAUTH st pl.2 rest).1, (MSA_handleAUTH st pl.2 rest).2.1,
         (MSA_handleAUTH st pl.2 rest).2.2, false)
      | some .starttls =>
        ((MSA_handleSTARTTLS st hsOk).1, (MSA_handleSTARTTLS st hsOk).2.1, rest, false)

/-- A concrete MSA server configuration used by closed instances. -/
def msaServer : Server :=
  { config := { Port := 587, Hostname := "mail.example.org",
                Key := "key.pem", Cert := "cert.pem" },
    tls := false, tlsConfig := true, smtper := .msa }

/-- A fresh MSA connection (`Server.newConn`). -/
def conn0 : conn :=
  { c_tls := false, br_tls := false, from_ := none, to_ := [], msg := "",
    tls := false, srv := msaServer }

example : write 503 "Need RCPT before DATA" = "503 Need RCPT before DATA\r\n" := by decide

example : writeMultiLine 250 ["mail.example.org", "STARTTLS"] =
    ["250-mail.example.org\r\n", "250 STARTTLS\r\n"] := by decide

/-- C1: in the DATA case of the older `Conn.serve` (the cited lines
1689–1701), the empty-recipient branch writes its 503 but does not
`break`: in the reachable state where `from` is set and `to` is empty,
DATA is answered with 503 *and* 354, the body is consumed, and 250 OK
follows — the data phase is entered although the claim requires it not
to be. -/
theorem C1_data_with_empty_rcpt_enters_body :
    Conn_DATA_step
        { from_ := some { Local := "a", Domain := "b.example" },
          to_ := [], msg := "", auth := true }
        "Hello\r\n.\r\n".data
      = ({ from_ := none, to_ := [], msg := "", auth := true },
         ["503 Need RCPT before DATA\r\n", "354 Accepting mail input\r\n",
          "250 OK\r\n"],
         []) := by decide

/-- C3: the body loop of `conn.handleDATA` accumulates the raw line
bytes for the handler: on the correctly dot-stuffed body
`..foo\r\n.bar\r\n.\r\n` it stores `..foo\r\n.bar\r\n`, while the
claimed decoding (leading dot stripped from every dot-initial line,
terminator excluded) yields `.foo\r\nbar\r\n` — the code never strips
the leading dot. -/
theorem C3_body_loop_keeps_leading_dots :
    dataLoop "" "..foo\r\n.bar\r\n.\r\n".data = ("..foo\r\n.bar\r\n", [])
  ∧ specDotDecodedBody "..foo\r\n.bar\r\n.\r\n".data = ".foo\r\nbar\r\n"
  ∧ (dataLoop "" "..foo\r\n.bar\r\n.\r\n".data).1
      ≠ specDotDecodedBody "..foo\r\n.bar\r\n.\r\n".data := by decide

/-- C4: both AUTH implementations run the two 334 legs with the right
base64 prompts, but neither validates the credentials.  With a valid
base64 username `alice` and password `wrongpassword`, `MSA.handleAUTH`
replies 235 OK unconditionally (its 535 line is commented out, no user
database is consulted, the state is untouched), and the older
`Conn.serve` AUTH case sets `auth = true` and then replies 535
"Authentication failed". -/
theorem C4_auth_ignores_credentials :
    MSA_handleAUTH { conn0 with tls := true } ["LOGIN"]
        ((base64Encode "alice" ++ "\n" ++ base64Encode "wrongpassword" ++ "\n").data)
      = ({ conn0 with tls := true },
         ["334 VXNlcm5hbWU6\r\n", "334 UGFzc3dvcmQ6\r\n", "235 OK\r\n"], [])
  ∧ Conn_AUTH_step { from_ := none, to_ := [], msg := "", auth := false } ["LOGIN"]
        ((base64Encode "alice" ++ "\n" ++ base64Encode "wrongpassword" ++ "\n").data)
      = ({ from_ := none, to_ := [], msg := "", auth := true },
         ["334 VXNlcm5hbWU6\r\n", "334 UGFzc3dvcmQ6\r\n",
          "535 Authentication failed\r\n"], [], false) := by decide

/-- C5 counterexample: on a connection already upgraded to TLS with
TLS configured, `MSA.extensions` still contains STARTTLS, so the
claimed equivalence "STARTTLS advertised iff TLS configured and not
already active" fails at this input. -/
theorem C5_starttls_advertised_inside_tls :
    ¬ (("STARTTLS" ∈ MSA_extensions { conn0 with c_tls := true, br_tls := true, tls := true }) ↔
        ({ conn0 with c_tls := true, br_tls := true, tls := true} : conn).srv.tlsConfig = true ∧
        ({ conn0 with c_tls := true, br_tls := true, tls := true} : conn).tls = false) := by
  decide

/-- C5 amended: the capability list produced for EHLO by the MSA role
contains STARTTLS exactly when TLS is configured (whether or not the
connection is already using TLS), and AUTH LOGIN exactly when the
connection is using TLS or no TLS is configured. -/
theorem C5_msa_extensions_characterisation (st : conn) :
    ("STARTTLS" ∈ MSA_extensions st ↔ st.srv.tlsConfig = true)
  ∧ ("AUTH LOGIN" ∈ MSA_extensions st ↔ (st.tls = true ∨ st.srv.tlsConfig = false)) := by
  cases hc : st.srv.tlsConfig <;> cases ht : st.tls <;>
    simp [MSA_extensions, hc, ht]

/-- C9 counterexample: `HeloCmd{Domain: "client.example"}` serialises
to the empty string, and parsing that yields the empty verb with no
arguments — not the HELO command that was serialised. -/
theorem C9_helo_does_not_roundtrip :
    cmdString (Cmd.helo "client.example") = ""
  ∧ parseLine (cmdString (Cmd.helo "client.example")) = ("", [])
  ∧ parseLine (cmdString (Cmd.helo "client.example")) ≠ ("HELO", ["client.example"]) := by
  decide

/-- C9 amended: every command variant's `String()` serialisation is
the empty string, so `parseLine (serialise c) = ("", [])` for every
variant and no command round-trips — the serialisable subset of the
command variants is empty. -/
theorem C9_all_serialisations_empty (c : Cmd) :
    cmdString c = "" ∧ parseLine (cmdString c) = ("", []) := by
  have h : parseLine "" = ("", []) := by decide
  cases c <;> exact ⟨rfl, h⟩

/-- C10: `MSA.authenticated` returns true for every connection state,
so the silent-drop branch of `MSA.handleMail` is unreachable: every
MAIL command is processed — duplicate-sender check, address parse and
a reply (503, 501 or 250) — regardless of whether AUTH LOGIN was ever
performed. -/
theorem C10_msa_mail_always_processed :
    MSA_authenticated = true
  ∧ ∀ (st : conn) (args : List String),
        (MSA_handleMail st args).2 = ["503 Sender already specified\r\n"]
      ∨ (MSA_handleMail st args).2 = ["501 Invalid syntax\r\n"]
      ∨ (MSA_handleMail st args).2 = ["250 OK\r\n"] := by
  refine ⟨rfl, fun st args => ?_⟩
  unfold MSA_handleMail
  cases hf : st.from_ <;> cases hp : parseFROM args <;>
    simp only [hf, hp, MSA_authenticated, MSA_validateFrom] <;>
    simp <;> decide

/-- C2: after the 250 OK completing a DATA phase, and after any RSET
or any post-greeting EHLO, the envelope fields `from`, `to`, `msg` are
cleared while every other connection field — in this version of the
state these are the TLS flag, the stream bindings and the server
reference — keeps the value it had immediately before (`{st with …}`
changes nothing else). -/
theorem C2_envelope_cleared_frame_preserved :
    (∀ (st : conn) (args : List String),
        handleRSET st args =
          ({ st with from_ := none, to_ := [], msg := "" }, ["250 OK\r\n"]))
  ∧ (∀ (st : conn) (args : List String),
        (handleEHLO st args).1 = { st with from_ := none, to_ := [], msg := "" })
  ∧ (∀ (st : conn) (input : List Char), st.from_ ≠ none → st.to_ ≠ [] →
        (handleDATA st input).1 = { st with from_ := none, to_ := [], msg := "" }) := by
  refine ⟨fun st args => rfl, fun st args => rfl, fun st input h1 h2 => ?_⟩
  unfold handleDATA
  rw [if_neg h1, if_neg (by simpa using h2)]
  rfl

/-- C2 witness: a DATA completion on a connection with a sender and a
recipient clears the envelope and preserves the rest of the state. -/
theorem C2_envelope_cleared_frame_preserved_witness :
    (handleDATA
        { conn0 with
          from_ := some { Local := "a", Domain := "b.example" },
          to_ := [{ Local := "c", Domain := "d.example" }] }
        "Hi\r\n.\r\n".data).1
      = { conn0 with from_ := none, to_ := [], msg := "" } :=
  C2_envelope_cleared_frame_preserved.2.2 _ _ (by decide) (by decide)

/-- C8 counterexample: with TLS configured and the connection not yet
in TLS, a failed STARTTLS handshake leaves the session open — the
handler writes 220 "Go ahead" then 550 "Handshake error" and returns
without closing (final component `false`) and without touching the
state, whereas the claim says the connection is terminated. -/
theorem C8_handshake_failure_leaves_session_open :
    MSA_handleSTARTTLS conn0 false
      = (conn0, ["220 Go ahead\r\n", "550 Handshake error\r\n"], false) := by decide

/-- C8 amended: after the 220 "Go ahead" reply, a successful handshake
re-binds the socket and the buffered reader to the encrypted stream
and resets all session state except the `tls` flag (which is set); a
failed handshake is answered with 550 and the handler returns to the
command loop without terminating the connection, leaving the state
unchanged. -/
theorem C8_starttls_success_rebinds_failure_replies_550 (st : conn)
    (h1 : st.tls = false) (h2 : st.srv.tlsConfig = true) :
    MSA_handleSTARTTLS st true
      = ({ st with
           c_tls := true, br_tls := true, tls := true,
           from_ := none, to_ := [], msg := "" },
         ["220 Go ahead\r\n"], false)
  ∧ MSA_handleSTARTTLS st false
      = (st, ["220 Go ahead\r\n", "550 Handshake error\r\n"], false) := by
  have w220 : write 220 "Go ahead" = "220 Go ahead\r\n" := by decide
  have w550 : write 550 "Handshake error" = "550 Handshake error\r\n" := by decide
  constructor <;>
    · unfold MSA_handleSTARTTLS
      rw [h1, h2]
      simp [reset, w220, w550]

/-- C8 witness: the amended behaviour at the fresh MSA connection. -/
theorem C8_starttls_witness :
    MSA_handleSTARTTLS conn0 true
      = ({ conn0 with
           c_tls := true, br_tls := true, tls := true,
           from_ := none, to_ := [], msg := "" },
         ["220 Go ahead\r\n"], false)
  ∧ MSA_handleSTARTTLS conn0 false
      = (conn0, ["220 Go ahead\r\n", "550 Handshake error\r\n"], false) :=
  C8_starttls_success_rebinds_failure_replies_550 conn0 rfl rfl


theorem untillRead_unfold (delims : List Char) (N d : Nat) (acc input : List Char) :
    untillRead delims N d acc input =
      if d = delims.length then (acc, none)
      else
        match N, input with
        | 0, _ => (acc, some .ltl)
        | _ + 1, [] => (acc, some .noDelims)
        | N' + 1, b :: rest =>
          untillRead delims N' (if delims.getD d ' ' = b then d + 1 else 0)
            (acc ++ [b]) rest := by
  rw [untillRead.eq_def]

theorem untillRead_done {delims : List Char} {d : Nat} (h : d = delims.length)
    (N : Nat) (acc input : List Char) :
    untillRead delims N d acc input = (acc, none) := by
  rw [untillRead_unfold, if_pos h]

theorem untillRead_zero {delims : List Char} {d : Nat} (h : ¬d = delims.length)
    (acc input : List Char) :
    untillRead delims 0 d acc input = (acc, some .ltl) := by
  rw [untillRead_unfold, if_neg h]

theorem untillRead_nilStream {delims : List Char} {d : Nat} (h : ¬d = delims.length)
    (N' : Nat) (acc : List Char) :
    untillRead delims (N' + 1) d acc [] = (acc, some .noDelims) := by
  rw [untillRead_unfold, if_neg h]

theorem untillRead_consStep {delims : List Char} {d : Nat} (h : ¬d = delims.length)
    (N' : Nat) (acc : List Char) (b : Char) (rest : List Char) :
    untillRead delims (N' + 1) d acc (b :: rest) =
      untillRead delims N' (delimStep delims d b) (acc ++ [b]) rest := by
  rw [untillRead_unfold, if_neg h]
  rfl

theorem delimScan_nil (delims : List Char) (d : Nat) :
    delimScan delims d [] = if d = delims.length then some 0 else none := by
  rw [delimScan.eq_def]

theorem delimScan_cons (delims : List Char) (d : Nat) (b : Char) (rest : List Char) :
    delimScan delims d (b :: rest) =
      if d = delims.length then some 0
      else (delimScan delims (delimStep delims d b) rest).map (· + 1) := by
  rw [delimScan.eq_def]

theorem untillRead_scan_some (delims : List Char) :
    ∀ (input : List Char) (d N : Nat) (acc : List Char) (k : Nat),
      delimScan delims d input = some k →
      (k ≤ N → untillRead delims N d acc input = (acc ++ input.take k, none)) ∧
      (N < k → untillRead delims N d acc input = (acc ++ input.take N, some .ltl)) := by
  intro input
  induction input with
  | nil =>
    intro d N acc k hscan
    rw [delimScan_nil] at hscan
    by_cases hd : d = delims.length
    · rw [if_pos hd] at hscan
      obtain rfl : (0 : Nat) = k := Option.some.inj hscan
      refine ⟨fun _ => ?_, fun h => absurd h (by omega)⟩
      rw [untillRead_done hd]
      simp
    · rw [if_neg hd] at hscan
      exact absurd hscan (by simp)
  | cons b rest ih =>
    intro d N acc k hscan
    rw [delimScan_cons] at hscan
    by_cases hd : d = delims.length
    · rw [if_pos hd] at hscan
      obtain rfl : (0 : Nat) = k := Option.some.inj hscan
      refine ⟨fun _ => ?_, fun h => absurd h (by omega)⟩
      rw [untillRead_done hd]
      simp
    · rw [if_neg hd, Option.map_eq_some'] at hscan
      obtain ⟨k', hk', rfl⟩ := hscan
      constructor
      · intro hkN
        cases N with
        | zero => omega
        | succ N' =>
          rw [untillRead_consStep hd]
          rw [(ih (delimStep delims d b) N' (acc ++ [b]) k' hk').1 (by omega)]
          simp [List.take_succ_cons]
      · intro hNk
        cases N with
        | zero =>
          rw [untillRead_zero hd]
          simp
        | succ N' =>
          rw [untillRead_consStep hd]
          rw [(ih (delimStep delims d b) N' (acc ++ [b]) k' hk').2 (by omega)]
          simp [List.take_succ_cons]

theorem untillRead_scan_none (delims : List Char) :
    ∀ (input : List Char) (d N : Nat) (acc : List Char),
      delimScan delims d input = none →
      (N ≤ input.length → untillRead delims N d acc input = (acc ++ input.take N, some .ltl)) ∧
      (input.length < N → untillRead delims N d acc input = (acc ++ input, some .noDelims)) := by
  intro input
  induction input with
  | nil =>
    intro d N acc hscan
    rw [delimScan_nil] at hscan
    by_cases hd : d = delims.length
    · rw [if_pos hd] at hscan
      exact absurd hscan (by simp)
    · refine ⟨fun h => ?_, fun h => ?_⟩
      · obtain rfl : N = 0 := by simpa using h
        rw [untillRead_zero hd]
        simp
      · cases N with
        | zero => omega
        | succ N' =>
          rw [untillRead_nilStream hd]
          simp
  | cons b rest ih =>
    intro d N acc hscan
    rw [delimScan_cons] at hscan
    by_cases hd : d = delims.length
    · rw [if_pos hd] at hscan
      exact absurd hscan (by simp)
    · rw [if_neg hd, Option.map_eq_none'] at hscan
      refine ⟨fun h => ?_, fun h => ?_⟩
      · cases N with
        | zero =>
          rw [untillRead_zero hd]
          simp
        | succ N' =>
          rw [untillRead_consStep hd]
          rw [(ih (delimStep delims d b) N' (acc ++ [b]) hscan).1 (by simpa using h)]
          simp [List.take_succ_cons]
      · cases N with
        | zero => omega
        | succ N' =>
          rw [untillRead_consStep hd]
          rw [(ih (delimStep delims d b) N' (acc ++ [b]) hscan).2 (by simpa using h)]
          simp

/-- C7: characterisation of `ReadUntill` over every delimiter
sequence, byte budget and input stream.  `delimScan delims 0 input =
some k` says the positional matcher consumes exactly `k` bytes of
`input` before the full delimiter is consumed.  `ReadUntill` returns
those `k` bytes (delimiter included) without error when `k` fits the
budget; `ErrLtl` when `maxBytes` bytes are consumed before the
delimiter completes (whether it would complete later or never); and
`ErrNoDelims` when the underlying stream ends cleanly — before both
the delimiter and the budget. -/
theorem C7_ReadUntill_characterisation (delims : List Char) (maxBytes : Nat)
    (input : List Char) :
    (∀ k, delimScan delims 0 input = some k → k ≤ maxBytes →
        ReadUntill delims maxBytes input = (input.take k, none))
  ∧ (∀ k, delimScan delims 0 input = some k → maxBytes < k →
        ReadUntill delims maxBytes input = (input.take maxBytes, some .ltl))
  ∧ (delimScan delims 0 input = none → maxBytes ≤ input.length →
        ReadUntill delims maxBytes input = (input.take maxBytes, some .ltl))
  ∧ (delimScan delims 0 input = none → input.length < maxBytes →
        ReadUntill delims maxBytes input = (input, some .noDelims)) := by
  refine ⟨fun k hs hk => ?_, fun k hs hk => ?_, fun hs hk => ?_, fun hs hk => ?_⟩
  · simpa [ReadUntill] using (untillRead_scan_some delims input 0 maxBytes [] k hs).1 hk
  · simpa [ReadUntill] using (untillRead_scan_some delims input 0 maxBytes [] k hs).2 hk
  · simpa [ReadUntill] using (untillRead_scan_none delims input 0 maxBytes [] hs).1 hk
  · simpa [ReadUntill] using (untillRead_scan_none delims input 0 maxBytes [] hs).2 hk

/-- C7 witness: the three outcomes at concrete inputs — a CRLF line
read within budget, a budget exhausted before the delimiter, and a
stream that ends cleanly without the delimiter. -/
theorem C7_ReadUntill_witness :
    ReadUntill "\r\n".data 512 "NOOP\r\nRSET\r\n".data = ("NOOP\r\n".data, none)
  ∧ ReadUntill "\r\n".data 4 "NOOP\r\n".data = ("NOOP".data, some .ltl)
  ∧ ReadUntill "\r\n".data 512 "NOOP".data = ("NOOP".data, some .noDelims) := by
  refine ⟨?_, ?_, ?_⟩
  · have h := (C7_ReadUntill_characterisation "\r\n".data 512 "NOOP\r\nRSET\r\n".data).1
      6 (by decide) (by decide)
    simpa using h
  · have h := (C7_ReadUntill_characterisation "\r\n".data 4 "NOOP\r\n".data).2.1
      6 (by decide) (by decide)
    simpa using h
  · have h := (C7_ReadUntill_characterisation "\r\n".data 512 "NOOP".data).2.2.2
      (by decide) (by decide)
    simpa using h

theorem firstNl_eq_none (xs : List Char) (h : ∀ c ∈ xs, c ≠ '\n') :
    firstNl xs = none := by
  induction xs with
  | nil => rfl
  | cons c cs ih =>
    have hc : c ≠ '\n' := h c (by simp)
    simp only [firstNl, if_neg hc]
    rw [ih (fun x hx => h x (by simp [hx]))]
    rfl

theorem firstNl_append_nl (l rest : List Char) (h : ∀ c ∈ l, c ≠ '\n') :
    firstNl (l ++ '\n' :: rest) = some l.length := by
  induction l with
  | nil => simp [firstNl]
  | cons c cs ih =>
    have hc : c ≠ '\n' := h c (by simp)
    simp only [List.cons_append, firstNl, if_neg hc, List.append_eq]
    rw [ih (fun x hx => h x (by simp [hx]))]
    simp

/-- C6: feeding the session a command line of 512 or more octets
followed by a newline (so the line, newline included, exceeds the
512-octet ceiling) produces exactly one 500 "Line too long" reply, the
entire connection state is returned unchanged, the session does not
close, and command reading resumes at the byte after the newline. -/
theorem C6_long_line_500_state_unchanged (hsOk : Bool) (st : conn)
    (l rest : List Char) (hlen : 512 ≤ l.length) (hnl : ∀ c ∈ l, c ≠ '\n') :
    mta_sessionStep hsOk st (l ++ '\n' :: rest)
      = (st, ["500 Line too long\r\n"], rest, false) := by
  have h1 : firstNl ((l ++ '\n' :: rest).take 512) = none := by
    rw [List.take_append_of_le_length hlen]
    exact firstNl_eq_none _ (fun c hc => hnl c (List.take_subset _ _ hc))
  have h2 : firstNl (l ++ '\n' :: rest) = some l.length :=
    firstNl_append_nl l rest hnl
  have h3 : (l ++ '\n' :: rest).drop (l.length + 1) = rest := by
    have he : l ++ '\n' :: rest = (l ++ ['\n']) ++ rest := by simp
    have hlen2 : (l ++ ['\n']).length = l.length + 1 := by simp
    rw [he, ← hlen2, List.drop_left]
  unfold mta_sessionStep MtaProtocol_GetCmd
  rw [h1, h2]
  show (st, [write 500 "Line too long"], (l ++ '\n' :: rest).drop (l.length + 1), false) = _
  rw [h3]
  rfl

/-- C6 witness: a 513-octet line (512 bytes plus the newline) followed
by `NOOP\r\n` yields the single 500 reply, an untouched state, and the
reader positioned at the NOOP line. -/
theorem C6_long_line_witness :
    mta_sessionStep true conn0 (List.replicate 512 'a' ++ '\n' :: "NOOP\r\n".data)
      = (conn0, ["500 Line too long\r\n"], "NOOP\r\n".data, false) :=
  C6_long_line_500_state_unchanged true conn0 _ _
    (by rw [List.length_replicate])
    (fun c hc => by rw [List.eq_of_mem_replicate hc]; decide)
